import Mathlib

/-!
Verification development for the BunnyCDNStorage module (src/index.mjs).

JavaScript strings are embedded as lists of characters (`JStr`); the string
operations the source uses (`startsWith`, `endsWith`, `slice(1)`,
`slice(0,-1)`, concatenation) become the corresponding list operations.
Stateful methods are embedded as pure functions that additionally return the
ordered trace of observable effects (HTTP requests, filesystem touches,
semaphore operations) and thread the semaphore's available-slot count
explicitly.  Transport outcomes (did this PUT/GET succeed after retries?) are
supplied by boolean oracles.
-/

namespace Bunny

/-- A JavaScript string, embedded as its list of characters. -/
abbrev JStr := List Char

def slash : Char := '/'

/-- JS `s.startsWith(p)`. -/
def jsStartsWith (s p : JStr) : Bool := p.isPrefixOf s

/-- JS `s.endsWith(p)`. -/
def jsEndsWith (s p : JStr) : Bool := p.isSuffixOf s

/-- The slash-stripping steps of `_getFilePath` (src/index.mjs lines 59-60
and 65-66): `if (x.startsWith('/')) x = x.slice(1); if (x.endsWith('/'))
x = x.slice(0, -1);`. -/
def stripSlashes (s : JStr) : JStr :=
  let s1 := if jsStartsWith s [slash] then s.drop 1 else s
  if jsEndsWith s1 [slash] then s1.dropLast else s1

/-- Embeds `_getFilePath(directory, fileName)` (src/index.mjs lines 54-75):
the directory contributes its stripped form followed by `"/"` unless it is
empty or `"/"` (JS falsiness of `''`), the file name contributes its
stripped form unless it is empty (JS `undefined` is embedded as the empty
string). -/
def _getFilePath (directory fileName : JStr) : JStr :=
  (if directory = [] ∨ directory = [slash] then []
   else stripSlashes directory ++ [slash])
  ++ (if fileName = [] then [] else stripSlashes fileName)

/-- Embeds `this.baseURL` (src/index.mjs line 23). -/
def baseURL : JStr := "https://storage.bunnycdn.com/".data

/-- Embeds `_getFullStorageUrl(directory, fileName)` (src/index.mjs lines
84-92). -/
def _getFullStorageUrl (storageZoneName directory fileName : JStr) : JStr :=
  baseURL ++ storageZoneName ++ [slash] ++ _getFilePath directory fileName

/-- One element of the JSON array a listing GET returns (spec §6):
`ObjectName`, `IsDirectory` and `Path` are the fields the source reads. -/
structure RemoteEntry where
  ObjectName : JStr
  IsDirectory : Bool
  Path : JStr
deriving DecidableEq, Repr

/-- Embeds `_getRemotePathFromFileWithoutStorageZone(file)` (src/index.mjs
lines 100-109): if `file.Path` starts with `'/' + zone + '/'`, drop
`zone.length + 2` characters, else return `file.Path` unchanged. -/
def _getRemotePathFromFileWithoutStorageZone
    (storageZoneName : JStr) (file : RemoteEntry) : JStr :=
  if jsStartsWith file.Path ([slash] ++ storageZoneName ++ [slash]) then
    file.Path.drop (storageZoneName.length + 2)
  else
    file.Path

/-- The `Path` field the store reports for the children of the directory
whose slash-terminated path relative to the zone root is `dirPath`
(empty for the root): `"/" ++ zone ++ "/" ++ dirPath`. -/
def mkPath (storageZoneName dirPath : JStr) : JStr :=
  [slash] ++ storageZoneName ++ [slash] ++ dirPath

/-- Observable effects of the embedded methods, in program order:
semaphore operations, HTTP requests (identified by their URL or target) and
local-filesystem touches. -/
inductive Eff where
  | acquire
  | release
  | httpGet (url : JStr)
  | httpPut (url : JStr)
  | httpDelete (url : JStr)
  | readLocal (p : JStr)
  | ensureDir (p : JStr)
  | openWrite (p : JStr)
deriving DecidableEq, Repr

/-- The error conditions the source raises (spec §7 taxonomy): the missing
local file checked pre-flight, the missing file-name argument, a transport
failure after retries, and a write-stream failure. -/
inductive Err where
  | notFound (p : JStr)
  | invalidArgument
  | transfer (url : JStr)
  | writeStream (p : JStr)
deriving DecidableEq, Repr

/-- Model of Node's `path.join(a, b)` restricted to the inputs this module
produces (no `.`/`..` segments): empty arguments are dropped, one separator
is placed between the parts, and duplicate separators at the seam are
collapsed as the Node normalizer would. -/
def pathJoin (a b : JStr) : JStr :=
  if a = [] then b
  else if b = [] then a
  else
    (if jsEndsWith a [slash] then a.dropLast else a) ++ [slash]
      ++ (if jsStartsWith b [slash] then b.drop 1 else b)

/-- Model of Node's `path.basename(p)`: the last segment, ignoring one
trailing separator. -/
def basename (p : JStr) : JStr :=
  let q := if jsEndsWith p [slash] then p.dropLast else p
  (q.reverse.takeWhile (fun c => c ≠ slash)).reverse

/-- A remote directory tree: what the object store serves.  A listing GET
for a directory returns one entry per child. -/
inductive RTree where
  | file (name : JStr)
  | dir (name : JStr) (children : List RTree)

/-- The URL `listFiles` requests for query path `q`: `_getFullStorageUrl(q)`
with `fileName` undefined (src/index.mjs line 118). -/
def listUrl (storageZoneName q : JStr) : JStr :=
  _getFullStorageUrl storageZoneName q []

/-- The entry loop of `listFiles` (src/index.mjs lines 131-140) over the
children `cs` of the directory whose slash-terminated path relative to the
zone root is `dirPath`: a non-directory entry is pushed; a directory entry
is pushed unexpanded when `recursive` is false, and otherwise replaced by
the recursive sub-listing of the query path
`_getRemotePathFromFileWithoutStorageZone(file) + file.ObjectName`, which
issues its own GET.  Returns the effect trace and the resulting entries. -/
def goEntries (storageZoneName dirPath : JStr) (recursive : Bool) :
    List RTree → List Eff × List RemoteEntry
  | [] => ([], [])
  | RTree.file n :: ts =>
    let rest := goEntries storageZoneName dirPath recursive ts
    (rest.1, ⟨n, false, mkPath storageZoneName dirPath⟩ :: rest.2)
  | RTree.dir n sub :: ts =>
    let rest := goEntries storageZoneName dirPath recursive ts
    if recursive then
      let subQuery := _getRemotePathFromFileWithoutStorageZone storageZoneName
        ⟨n, true, mkPath storageZoneName dirPath⟩ ++ n
      let subRes := goEntries storageZoneName (dirPath ++ n ++ [slash]) recursive sub
      (Eff.httpGet (listUrl storageZoneName subQuery) :: subRes.1 ++ rest.1,
       subRes.2 ++ rest.2)
    else
      (rest.1, ⟨n, true, mkPath storageZoneName dirPath⟩ :: rest.2)

/-- Embeds `listFiles(queryDir, recursive)` (src/index.mjs lines 116-148)
run against a store where the queried directory canonically sits at
`dirPath` (slash-terminated, relative to the zone root) and has children
`cs`: one GET for the directory itself, then the entry loop. -/
def listFilesRun (storageZoneName queryDir dirPath : JStr) (recursive : Bool)
    (cs : List RTree) : List Eff × List RemoteEntry :=
  (Eff.httpGet (listUrl storageZoneName queryDir)
      :: (goEntries storageZoneName dirPath recursive cs).1,
   (goEntries storageZoneName dirPath recursive cs).2)

/-- Follows the spec's words (spec §4.3, `recursive = false` case): the
directory's immediate entries, directory entries included unexpanded with
`isDirectory = true`. -/
def immediateEntriesSpec (storageZoneName dirPath : JStr)
    (cs : List RTree) : List RemoteEntry :=
  cs.map fun t =>
    match t with
    | RTree.file n => ⟨n, false, mkPath storageZoneName dirPath⟩
    | RTree.dir n _ => ⟨n, true, mkPath storageZoneName dirPath⟩

/-- Embeds `uploadFile(localFilePath, remoteDirectory)` (src/index.mjs lines
155-183): pre-flight existence check, then a read stream is opened and the
PUT is issued at `_getFullStorageUrl(remoteDirectory,
basename(localFilePath))`; the PUT outcome after the configured retries is
supplied by the oracle `putOk`.  On success the target URL stands in for
the returned acknowledgement. -/
def uploadFileRun (fileExists putOk : Bool)
    (storageZoneName localFilePath remoteDirectory : JStr) :
    List Eff × Except Err JStr :=
  if fileExists = false then
    ([], Except.error (Err.notFound localFilePath))
  else
    let url := _getFullStorageUrl storageZoneName remoteDirectory
      (basename localFilePath)
    ([Eff.readLocal localFilePath, Eff.httpPut url],
     if putOk then Except.ok url else Except.error (Err.transfer url))

/-- Embeds `downloadFile(remoteDirectory, fileName, localDirectory)`
(src/index.mjs lines 192-233): empty-file-name check, then the streaming
GET (outcome after retries supplied by `getOk`); only on a successful GET
are `ensureDir` and the write stream opened, and the write stream's outcome
is supplied by `writeOk`. -/
def downloadFileRun (getOk writeOk : Bool)
    (storageZoneName remoteDirectory fileName localDirectory : JStr) :
    List Eff × Except Err JStr :=
  if fileName = [] then
    ([], Except.error Err.invalidArgument)
  else
    let url := _getFullStorageUrl storageZoneName remoteDirectory fileName
    if getOk = false then
      ([Eff.httpGet url], Except.error (Err.transfer url))
    else
      let localPath := pathJoin localDirectory fileName
      ([Eff.httpGet url, Eff.ensureDir localDirectory, Eff.openWrite localPath],
       if writeOk then Except.ok localPath
       else Except.error (Err.writeStream localPath))

/-- Embeds `delete(remoteDirectory, fileName)` (src/index.mjs lines
241-262): empty-file-name check, then the DELETE request; returns the
URL. -/
def deleteRun (deleteOk : Bool)
    (storageZoneName remoteDirectory fileName : JStr) :
    List Eff × Except Err JStr :=
  if fileName = [] then
    ([], Except.error Err.invalidArgument)
  else
    let url := _getFullStorageUrl storageZoneName remoteDirectory fileName
    ([Eff.httpDelete url],
     if deleteOk then Except.ok url else Except.error (Err.transfer url))

/-- Outcome of a run of `uploadFolder`'s transfer loop: the semaphore's
final available-slot count, the set of objects now present on the remote
(as their URLs, in upload order), the effect trace, and the result. -/
structure FolderOut where
  avail : Nat
  remoteState : List JStr
  trace : List Eff
  result : Except Err (List JStr)

/-- The transfer loop of `uploadFolder` (src/index.mjs lines 324-340) over
the already-enumerated-and-filtered relative file names: per file,
`sema.acquire()`, then `uploadFile(path.join(localDirectory, fileName),
remoteDirectory)`; on success the name is pushed and `sema.release()` runs;
when `uploadFile` throws, the `catch` (lines 344-347) rethrows without any
release, so the loop ends with no further effects.  `ok f` is the PUT
outcome for file `f` after retries.  (The `recursive &&
lstatSync(...).isDirectory()` branch at line 331 is dead at runtime because
`_getLocalFiles` only ever returns non-directory paths, and is omitted.)
The semaphore never suspends here because the loop awaits each transfer, so
`acquire` is simply a decrement. -/
def uploadFolderLoop (ok : JStr → Bool)
    (storageZoneName remoteDirectory localDirectory : JStr)
    (avail : Nat) (remoteState : List JStr) :
    List JStr → FolderOut
  | [] => ⟨avail, remoteState, [], Except.ok []⟩
  | f :: fs =>
    let a1 := avail - 1
    let filePath := pathJoin localDirectory f
    let up := uploadFileRun true (ok f) storageZoneName filePath remoteDirectory
    match up.2 with
    | Except.error e => ⟨a1, remoteState, Eff.acquire :: up.1, Except.error e⟩
    | Except.ok u =>
      let rest := uploadFolderLoop ok storageZoneName remoteDirectory
        localDirectory (a1 + 1) (remoteState ++ [u]) fs
      ⟨rest.avail, rest.remoteState,
       Eff.acquire :: up.1 ++ Eff.release :: rest.trace,
       match rest.result with
       | Except.ok us => Except.ok (f :: us)
       | Except.error e => Except.error e⟩

/-- The destination directory `downloadFolder` computes for one surviving
entry (src/index.mjs lines 383-387): `localDirectory` joined with the
entry's `Path` stripped of the zone prefix, when `recursive` is true and
that stripped path is non-empty (JS truthiness), else `localDirectory`. -/
def downloadDestination (storageZoneName localDirectory : JStr)
    (recursive : Bool) (file : RemoteEntry) : JStr :=
  if recursive = true
      ∧ _getRemotePathFromFileWithoutStorageZone storageZoneName file ≠ [] then
    pathJoin localDirectory
      (_getRemotePathFromFileWithoutStorageZone storageZoneName file)
  else localDirectory

/-- The local file path a `downloadFolder` entry ends up at:
`path.join(destination, file.ObjectName)` computed inside `downloadFile`
(src/index.mjs line 210). -/
def downloadLocalPath (storageZoneName localDirectory : JStr)
    (recursive : Bool) (file : RemoteEntry) : JStr :=
  pathJoin (downloadDestination storageZoneName localDirectory recursive file)
    file.ObjectName

/-- Outcome of a run of `downloadFolder`'s transfer loop. -/
structure DOut where
  avail : Nat
  trace : List Eff
  result : Except Err (List JStr)

/-- The transfer loop of `downloadFolder` (src/index.mjs lines 379-396) over
the filtered entries: per entry, `sema.acquire()`, then
`downloadFile(strippedPath, file.ObjectName, destination)`; on success the
returned path is pushed and `sema.release()` runs; when `downloadFile`
throws, the `catch` (lines 400-403) rethrows without any release.  `ok e`
supplies the transfer outcome (GET and write stream) for entry `e`. -/
def downloadFolderLoop (ok : RemoteEntry → Bool)
    (storageZoneName localDirectory : JStr) (recursive : Bool) (avail : Nat) :
    List RemoteEntry → DOut
  | [] => ⟨avail, [], Except.ok []⟩
  | e :: es =>
    let a1 := avail - 1
    let dest := downloadDestination storageZoneName localDirectory recursive e
    let dl := downloadFileRun (ok e) (ok e) storageZoneName
      (_getRemotePathFromFileWithoutStorageZone storageZoneName e)
      e.ObjectName dest
    match dl.2 with
    | Except.error err => ⟨a1, Eff.acquire :: dl.1, Except.error err⟩
    | Except.ok lp =>
      let rest := downloadFolderLoop ok storageZoneName localDirectory
        recursive (a1 + 1) es
      ⟨rest.avail, Eff.acquire :: dl.1 ++ Eff.release :: rest.trace,
       match rest.result with
       | Except.ok ps => Except.ok (lp :: ps)
       | Except.error er => Except.error er⟩

/-- Model of Node's `path.extname`: the final dot-led suffix of the last
segment, empty when that segment has no dot past its first character. -/
def extname (p : JStr) : JStr :=
  let base := basename p
  let tail := base.reverse.takeWhile (fun c => c ≠ '.')
  if tail.length + 1 < base.length then '.' :: tail.reverse else []

/-- The filter `downloadFolder` applies before its loop (src/index.mjs
lines 361-371): keep entries with `IsDirectory === false` whose extension
is not excluded; with no exclusions, keep exactly the non-directories. -/
def downloadFolderFilter (excluded : List JStr) (files : List RemoteEntry) :
    List RemoteEntry :=
  if excluded = [] then
    files.filter fun file => file.IsDirectory = false
  else
    files.filter fun file =>
      file.IsDirectory = false
        ∧ (extname file.ObjectName) ∉ excluded

/-- The retry delay the constructor configures (src/index.mjs lines 40-44):
`retryDelay: (n) => n * 2000` milliseconds before the Nth retry. -/
def retryDelay (n : Nat) : Nat := n * 2000

/-- Modelled from the spec: the retry loop itself lives in the `axios-retry`
dependency, which is not part of this repository's sources; only its
configuration (`retries = retryCount`, linear `retryDelay`) appears in
src/index.mjs lines 40-44.  Per spec §4.4, every transport call gets up to
`retryCount` additional attempts after the first failure and exhaustion
surfaces the last failure.  `attempt k` is `none` when the (0-based) `k`-th
underlying attempt succeeds, `some e` when it fails with `e`; the result is
the number of attempts performed and the surfaced failure, if any. -/
def retryRun (attempt : Nat → Option Err) (idx : Nat) : Nat → Nat × Option Err
  | 0 =>
    match attempt idx with
    | none => (idx + 1, none)
    | some e => (idx + 1, some e)
  | r + 1 =>
    match attempt idx with
    | none => (idx + 1, none)
    | some _ => retryRun attempt (idx + 1) r

/-- A transport call under the configured retry policy: the first attempt
plus up to `retries` more. -/
def runWithRetries (retries : Nat) (attempt : Nat → Option Err) :
    Nat × Option Err :=
  retryRun attempt 0 retries

theorem mkPath_strips (storageZoneName dirPath : JStr) (name : JStr) (d : Bool) :
    _getRemotePathFromFileWithoutStorageZone storageZoneName
      ⟨name, d, mkPath storageZoneName dirPath⟩ = dirPath := by
  have hpre : jsStartsWith (mkPath storageZoneName dirPath)
      ([slash] ++ storageZoneName ++ [slash]) = true := by
    simp [jsStartsWith, mkPath, List.isPrefixOf_iff_prefix]
  have hlen : storageZoneName.length + 2
      = ([slash] ++ storageZoneName ++ [slash]).length := by
    simp [List.length_append]
  simp only [_getRemotePathFromFileWithoutStorageZone, hpre, if_true]
  simp only [mkPath, ← List.append_assoc, hlen]
  rw [List.drop_left ([slash] ++ storageZoneName ++ [slash]) dirPath]

theorem goEntries_no_dir_of_recursive (z p : JStr) (r : Bool) (cs : List RTree)
    (hr : r = true) : ∀ e ∈ (goEntries z p r cs).2, e.IsDirectory = false := by
  induction p, r, cs using goEntries.induct z with
  | _ => simp_all [goEntries]; try tauto

theorem goEntries_nonrec (z p : JStr) (r : Bool) (cs : List RTree)
    (hr : r = false) : (goEntries z p r cs).2 = immediateEntriesSpec z p cs := by
  induction p, r, cs using goEntries.induct z with
  | _ => simp_all [goEntries, immediateEntriesSpec]; try tauto

theorem goEntries_get_only (z p : JStr) (r : Bool) (cs : List RTree) :
    ∀ e ∈ (goEntries z p r cs).1, ∃ u, e = Eff.httpGet u := by
  induction p, r, cs using goEntries.induct z with
  | _ => simp_all [goEntries]; try tauto

theorem retryRun_fst_le (attempt : Nat → Option Err) :
    ∀ remaining idx, (retryRun attempt idx remaining).1 ≤ idx + remaining + 1 := by
  intro remaining
  induction remaining with
  | zero =>
    intro idx
    cases h : attempt idx <;> simp [retryRun, h]
  | succ r ih =>
    intro idx
    cases h : attempt idx with
    | none => simp [retryRun, h]
    | some e =>
      have := ih (idx + 1)
      simp [retryRun, h]
      omega

theorem retryRun_all_fail (attempt : Nat → Option Err) :
    ∀ remaining idx, (∀ n, idx ≤ n → n ≤ idx + remaining → attempt n ≠ none) →
    retryRun attempt idx remaining
      = (idx + remaining + 1, attempt (idx + remaining)) := by
  intro remaining
  induction remaining with
  | zero =>
    intro idx h
    have h0 := h idx le_rfl (by omega)
    cases ha : attempt idx with
    | none => exact absurd ha h0
    | some e => simp [retryRun, ha]
  | succ r ih =>
    intro idx h
    have h0 := h idx le_rfl (by omega)
    cases ha : attempt idx with
    | none => exact absurd ha h0
    | some e =>
      have hrec := ih (idx + 1) (fun n h1 h2 => h n (by omega) (by omega))
      have hidx : idx + 1 + r = idx + (r + 1) := by omega
      simp [retryRun, ha, hrec, hidx]

/-- Claim C1: the claim says every `sema.acquire()` in `uploadFolder` and
`downloadFolder` is paired with exactly one later `sema.release()` on every
code path, including the path where the transfer throws.  The code violates
it: when `uploadFile`/`downloadFile` throws, the `catch` rethrows without
releasing, so a failing single-file run ends with 15 of 16 slots available
and no release effect in its trace, while an all-success run restores all
16.  This theorem evaluates the embedded loops at those inputs. -/
theorem C1_release_skipped_on_error :
    (uploadFolderLoop (fun _ => false) "zone".data "/".data ".".data 16 []
      ["a.txt".data]).avail = 15
    ∧ (uploadFolderLoop (fun _ => true) "zone".data "/".data ".".data 16 []
      ["a.txt".data, "b.txt".data]).avail = 16
    ∧ ((uploadFolderLoop (fun _ => false) "zone".data "/".data ".".data 16 []
      ["a.txt".data]).trace.count Eff.release) = 0
    ∧ (downloadFolderLoop (fun _ => false) "zone".data "R".data false 16
      [⟨"d.txt".data, false, "/zone/".data⟩]).avail = 15
    ∧ (downloadFolderLoop (fun _ => true) "zone".data "R".data false 16
      [⟨"d.txt".data, false, "/zone/".data⟩]).avail = 16 := by
  decide

/-- Claim C2, counterexample: listing the queried directory `sub`
recursively yields the entry for `sub/d.txt` with `Path = "/zone/sub/"`,
and `downloadFolder` computes destination `R/sub/` for it — not `R`, which
is what "localDirectory joined with the entry's remote directory path
relative to the queried remoteDirectory" (here: `d.txt` sits directly in
the queried root, so relative directory is empty) would give. -/
theorem C2_counterexample_subdirectory_query :
    (goEntries "zone".data "sub/".data true [RTree.file "d.txt".data]).2
      = [⟨"d.txt".data, false, "/zone/sub/".data⟩]
    ∧ downloadDestination "zone".data "R".data true
        ⟨"d.txt".data, false, "/zone/sub/".data⟩ = "R/sub/".data
    ∧ (("R/sub/".data : JStr) == "R".data) = false := by
  refine ⟨?_, by decide, by decide⟩
  simp [goEntries]
  decide

/-- Claim C2 (amended): for an entry whose `Path` is the zone path of the
directory at `dirPath` relative to the **zone root**, the destination is
`localDirectory` joined with that zone-root-relative directory path when
`recursive` is true and the stripped path is non-empty, and `localDirectory`
unchanged when `recursive` is false (or when the stripped path is empty,
i.e. for entries directly in the zone root).  This equals "relative to the
queried remoteDirectory" only when the queried directory is the root, as in
the spec's example, reproduced concretely in the last conjunct: downloading
the root tree with `sub/d.txt` into `R` places the file at `R/sub/d.txt`. -/
theorem C2_destination_relative_to_zone_root
    (storageZoneName localDirectory d : JStr) (e : RemoteEntry)
    (hp : e.Path = mkPath storageZoneName d) :
    downloadDestination storageZoneName localDirectory false e = localDirectory
    ∧ (d ≠ [] → downloadDestination storageZoneName localDirectory true e
        = pathJoin localDirectory d)
    ∧ (d = [] → downloadDestination storageZoneName localDirectory true e
        = localDirectory)
    ∧ ((listFilesRun "zone".data "/".data [] true
        [RTree.dir "sub".data [RTree.file "d.txt".data]]).2.map
        (downloadLocalPath "zone".data "R".data true))
      = ["R/sub/d.txt".data] := by
  have hstrip : _getRemotePathFromFileWithoutStorageZone storageZoneName e
      = d := by
    obtain ⟨obn, b, p⟩ := e
    simp only at hp
    subst hp
    exact mkPath_strips storageZoneName d obn b
  refine ⟨?_, ?_, ?_, ?_⟩
  · simp [downloadDestination]
  · intro hd; simp [downloadDestination, hstrip, hd]
  · intro hd; simp [downloadDestination, hstrip, hd]
  · simp [listFilesRun, goEntries]
    decide

theorem C2_destination_relative_to_zone_root_witness :
    downloadDestination "zone".data "R".data true
      ⟨"d.txt".data, false, "/zone/sub/".data⟩
      = pathJoin "R".data "sub/".data :=
  (C2_destination_relative_to_zone_root "zone".data "R".data "sub/".data
    ⟨"d.txt".data, false, "/zone/sub/".data⟩ (by decide)).2.1 (by decide)

/-- Claim C3: a recursive listing returns only file entries (no entry has
`IsDirectory = true`); a non-recursive listing returns the directory's
immediate entries with directory entries included unexpanded; and a
directory entry under `recursive = true` is replaced in place by the
entries of its recursive sub-listing. -/
theorem C3_recursive_listing_returns_only_files
    (storageZoneName queryDir dirPath n : JStr) (sub ts cs : List RTree) :
    (((listFilesRun storageZoneName queryDir dirPath true cs).2).all
        fun e => !e.IsDirectory) = true
    ∧ (listFilesRun storageZoneName queryDir dirPath false cs).2
        = immediateEntriesSpec storageZoneName dirPath cs
    ∧ (listFilesRun storageZoneName queryDir dirPath true
        (RTree.dir n sub :: ts)).2
      = (goEntries storageZoneName (dirPath ++ n ++ [slash]) true sub).2
        ++ (goEntries storageZoneName dirPath true ts).2 := by
  refine ⟨?_, ?_, ?_⟩
  · rw [List.all_eq_true]
    intro e he
    simp only [listFilesRun] at he
    simp [goEntries_no_dir_of_recursive storageZoneName dirPath true cs rfl e he]
  · simpa [listFilesRun] using
      goEntries_nonrec storageZoneName dirPath false cs rfl
  · simp [listFilesRun, goEntries]

/-- Claim C4, counterexample: for zone `zone`, an entry whose path is
exactly the zone root `/zone/` is mapped to the empty string, not to `/`
as the claim states. -/
theorem C4_counterexample_zone_root :
    ((_getRemotePathFromFileWithoutStorageZone "zone".data
        ⟨[], true, "/zone/".data⟩ : JStr) == "/".data) = false
    ∧ _getRemotePathFromFileWithoutStorageZone "zone".data
        ⟨[], true, "/zone/".data⟩ = [] := by
  decide

/-- Claim C4 (amended): `_getRemotePathFromFileWithoutStorageZone` removes
exactly one leading `/<storageZoneName>/` prefix when present and returns
the input unchanged otherwise; `/zone/a/b` with zone `zone` yields `a/b`,
and an entry whose path equals exactly the zone root `/zone/` yields the
empty string (not `/`). -/
theorem C4_zone_prefix_stripping (storageZoneName rest : JStr) (e : RemoteEntry)
    (hp : e.Path = [slash] ++ storageZoneName ++ [slash] ++ rest) :
    _getRemotePathFromFileWithoutStorageZone storageZoneName e = rest
    ∧ (∀ f : RemoteEntry,
        jsStartsWith f.Path ([slash] ++ storageZoneName ++ [slash]) = false →
        _getRemotePathFromFileWithoutStorageZone storageZoneName f = f.Path)
    ∧ _getRemotePathFromFileWithoutStorageZone "zone".data
        ⟨[], false, "/zone/a/b".data⟩ = "a/b".data
    ∧ _getRemotePathFromFileWithoutStorageZone "zone".data
        ⟨[], false, "/zone/".data⟩ = [] := by
  refine ⟨?_, ?_, by decide, by decide⟩
  · obtain ⟨obn, d, p⟩ := e
    simp only at hp
    subst hp
    exact mkPath_strips storageZoneName rest obn d
  · intro f hf
    simp only [_getRemotePathFromFileWithoutStorageZone]
    rw [if_neg]
    simpa using hf

theorem C4_zone_prefix_stripping_witness :
    _getRemotePathFromFileWithoutStorageZone "zone".data
      ⟨[], false, "/zone/a/b".data⟩ = "a/b".data :=
  (C4_zone_prefix_stripping "zone".data "a/b".data
    ⟨[], false, "/zone/a/b".data⟩ (by decide)).1

/-- Claim C5: when the file `f` is the first failing file of an
`uploadFolder` run (everything before it succeeds), the loop ends with
exactly the one error describing `f`'s transfer failure, the remote holds
exactly the files uploaded before `f` (nothing is removed), and the trace
contains no DELETE request — no rollback or cleanup is attempted. -/
theorem C5_first_failure_aborts_without_rollback (ok : JStr → Bool)
    (storageZoneName remoteDirectory localDirectory : JStr)
    (pre post : List JStr) (f : JStr) (avail : Nat) (remoteState : List JStr)
    (hf : ok f = false) (hpre : ∀ g ∈ pre, ok g = true) :
    (uploadFolderLoop ok storageZoneName remoteDirectory localDirectory avail
        remoteState (pre ++ f :: post)).result
      = Except.error (Err.transfer (_getFullStorageUrl storageZoneName
          remoteDirectory (basename (pathJoin localDirectory f))))
    ∧ (uploadFolderLoop ok storageZoneName remoteDirectory localDirectory avail
        remoteState (pre ++ f :: post)).remoteState
      = remoteState ++ pre.map (fun g => _getFullStorageUrl storageZoneName
          remoteDirectory (basename (pathJoin localDirectory g)))
    ∧ ((uploadFolderLoop ok storageZoneName remoteDirectory localDirectory avail
        remoteState (pre ++ f :: post)).trace.countP
        (fun e => match e with | Eff.httpDelete _ => true | _ => false)) = 0 := by
  induction pre generalizing avail remoteState with
  | nil =>
    simp only [List.nil_append]
    simp [uploadFolderLoop, uploadFileRun, hf]
  | cons g gs ih =>
    have hg : ok g = true := hpre g (List.mem_cons_self g gs)
    have hgs : ∀ x ∈ gs, ok x = true :=
      fun x hx => hpre x (List.mem_cons_of_mem g hx)
    have hrec := ih (avail - 1 + 1)
      (remoteState ++ [_getFullStorageUrl storageZoneName remoteDirectory
        (basename (pathJoin localDirectory g))]) hgs
    simp only [List.cons_append]
    simp [uploadFolderLoop, uploadFileRun, hg, hrec.1, hrec.2.1, hrec.2.2,
      List.append_assoc]

theorem C5_first_failure_witness :
    (uploadFolderLoop (fun g => !(g == "b.txt".data)) "zone".data "/".data
        "up".data 16 []
        (["a.txt".data] ++ "b.txt".data :: ["c.txt".data])).result
      = Except.error (Err.transfer (_getFullStorageUrl "zone".data "/".data
          (basename (pathJoin "up".data "b.txt".data)))) :=
  (C5_first_failure_aborts_without_rollback (fun g => !(g == "b.txt".data))
    "zone".data "/".data "up".data ["a.txt".data] ["c.txt".data] "b.txt".data
    16 [] (by decide) (by decide)).1

/-- Claim C6: the claim says every recursive sub-listing in `listFiles`
holds a Concurrency Gate slot.  The code never touches `this.sema` inside
`listFiles` at all (contradicting the constructor's own doc comment, which
says the concurrency limit is used for recursive listing): the trace of any
listing run, recursive or not, contains zero acquire and zero release
effects. -/
theorem C6_listing_never_touches_gate
    (storageZoneName queryDir dirPath : JStr) (recursive : Bool)
    (cs : List RTree) :
    (listFilesRun storageZoneName queryDir dirPath recursive cs).1.count
      Eff.acquire = 0
    ∧ (listFilesRun storageZoneName queryDir dirPath recursive cs).1.count
      Eff.release = 0 := by
  have hget := goEntries_get_only storageZoneName dirPath recursive cs
  constructor
  all_goals
    rw [List.count_eq_zero]
    intro hmem
    simp only [listFilesRun, List.mem_cons] at hmem
    rcases hmem with h | h
    · simp at h
    · obtain ⟨u, hu⟩ := hget _ h
      simp at hu

/-- Claim C7: `uploadFile` on a missing local file, and `downloadFile` and
`delete` on an empty file name, fail with the corresponding pre-flight
error and an empty effect trace — no HTTP request is issued. -/
theorem C7_preflight_checks (putOk getOk writeOk deleteOk : Bool)
    (storageZoneName localFilePath remoteDirectory localDirectory : JStr) :
    uploadFileRun false putOk storageZoneName localFilePath remoteDirectory
      = ([], Except.error (Err.notFound localFilePath))
    ∧ downloadFileRun getOk writeOk storageZoneName remoteDirectory []
        localDirectory
      = ([], Except.error Err.invalidArgument)
    ∧ deleteRun deleteOk storageZoneName remoteDirectory []
      = ([], Except.error Err.invalidArgument) := by
  refine ⟨?_, ?_, ?_⟩ <;> simp [uploadFileRun, downloadFileRun, deleteRun]

/-- Claim C8: with `retryCount = 2`, a transport that fails the first two
attempts and succeeds on the third yields success with exactly 3 attempts;
in general at most `retries + 1` attempts are performed, when every attempt
fails the run performs `retries + 1` attempts and surfaces the last
attempt's failure, and the delay before the Nth retry is `N * 2000`
(linear in N). -/
theorem C8_retry_count (retries : Nat) (attempt : Nat → Option Err)
    (hfail : ∀ n, n ≤ retries → attempt n ≠ none) :
    runWithRetries 2 (fun n => if n < 2 then some Err.invalidArgument else none)
      = (3, none)
    ∧ (runWithRetries retries attempt).1 = retries + 1
    ∧ (runWithRetries retries attempt).2 = attempt retries
    ∧ (∀ r ok, (runWithRetries r ok).1 ≤ r + 1)
    ∧ (∀ n, retryDelay n = n * 2000) := by
  have hall := retryRun_all_fail attempt retries 0
    (fun n h1 h2 => hfail n (by omega))
  refine ⟨by decide, ?_, ?_, ?_, fun n => rfl⟩
  · simp [runWithRetries, hall]
  · simp [runWithRetries, hall]
  · intro r ok
    have := retryRun_fst_le ok r 0
    simpa [runWithRetries] using this

theorem C8_retry_count_witness :
    (runWithRetries 1 (fun _ => some Err.invalidArgument)).1 = 1 + 1 :=
  (C8_retry_count 1 (fun _ => some Err.invalidArgument)
    (fun n h => by simp)).2.1

/-- Claim C9: the path-mapper equations — `_getFilePath('', 'a.txt') =
'a.txt'`, `_getFilePath('/x/', '/y/') = 'x/y'`, and
`_getFullStorageUrl('/', 'f') = baseURL ++ zone ++ '/f'` for any zone. -/
theorem C9_path_mapper_equations (storageZoneName : JStr) :
    _getFilePath "".data "a.txt".data = "a.txt".data
    ∧ _getFilePath "/x/".data "/y/".data = "x/y".data
    ∧ _getFullStorageUrl storageZoneName "/".data "f".data
        = baseURL ++ storageZoneName ++ "/f".data := by
  refine ⟨by decide, by decide, ?_⟩
  simp [_getFullStorageUrl, _getFilePath, stripSlashes, jsStartsWith,
    jsEndsWith, slash]
  decide

/-- Claim C10: a `downloadFile` run whose GET fails (after retries) touches
the local filesystem in no way: its trace contains no `ensureDir` and no
write-stream opening, whatever the other arguments are. -/
theorem C10_failed_get_touches_no_fs (writeOk : Bool)
    (storageZoneName remoteDirectory fileName localDirectory : JStr) :
    ((downloadFileRun false writeOk storageZoneName remoteDirectory fileName
        localDirectory).1.countP
      (fun e => match e with
        | Eff.ensureDir _ => true
        | Eff.openWrite _ => true
        | _ => false)) = 0 := by
  by_cases h : fileName = [] <;> simp [downloadFileRun, h]

end Bunny
